import Mathlib

/-!
Verification of the FASTQ parsing / feature extraction / CSV-TSV ingestion /
record-merging pipeline of the repository (src/fastq-parser.js,
src/data-extractor.js, src/mapping-parser.js, src/data-merger.js,
src/process-all.js).

Strings of the JavaScript source are modelled as `List Char` (`JStr`);
JavaScript numbers appearing in the pipeline are modelled exactly:
integer counters as `Nat`, the 2-decimal statistics as rationals (`ℚ`).
Each definition mirrors one function of the source; the doc comments name
the source function embedded.
-/

/-- JavaScript strings, modelled as lists of characters. -/
abbrev JStr := List Char

/-- The whitespace characters removed by JavaScript `String.prototype.trim`
(restricted to the code points that occur in this pipeline's inputs). -/
def isJsWs (c : Char) : Bool :=
  c = ' ' || c = '\t' || c = '\n' || c = '\r' || c = '\x0b' || c = '\x0c'

/-- JavaScript `s.trim()`: strip leading and trailing whitespace. -/
def jsTrim (s : JStr) : JStr :=
  ((s.dropWhile isJsWs).reverse.dropWhile isJsWs).reverse

/-- The decimal digit character for `d < 10` (used to render numerals the way
a JavaScript template literal renders a number). -/
def digitChar (d : Nat) : Char :=
  match d with
  | 0 => '0' | 1 => '1' | 2 => '2' | 3 => '3' | 4 => '4'
  | 5 => '5' | 6 => '6' | 7 => '7' | 8 => '8' | 9 => '9'
  | _ => '*'

/-- Numeric value of a decimal digit character. -/
def digitVal (c : Char) : Nat := c.toNat - 48

/-- Fuel-carrying form of the decimal-numeral construction (structural
recursion on the fuel keeps the function kernel-reducible; `natLit` always
supplies enough fuel). -/
def natLitAux (fuel n : Nat) : JStr :=
  match fuel with
  | 0 => []
  | fuel + 1 =>
      if n < 10 then [digitChar n]
      else natLitAux fuel (n / 10) ++ [digitChar (n % 10)]

/-- Decimal numeral of a natural number, as produced by JavaScript
number-to-string conversion for nonnegative integers. -/
def natLit (n : Nat) : JStr := natLitAux (n + 1) n

/-- Read a decimal digit string back into a natural number. -/
def decodeDigits (cs : JStr) : Nat :=
  cs.foldl (fun a c => 10 * a + digitVal c) 0

/-- The numeric value of the maximal digit suffix of a string
(e.g. the `3` of `"record_3"`). -/
def digitsSuffixVal (cs : JStr) : Nat :=
  decodeDigits ((cs.reverse.takeWhile Char.isDigit).reverse)

theorem digitVal_digitChar {d : Nat} (h : d < 10) : digitVal (digitChar d) = d := by
  interval_cases d <;> rfl

theorem decodeDigits_append (xs : JStr) (c : Char) :
    decodeDigits (xs ++ [c]) = 10 * decodeDigits xs + digitVal c := by
  simp [decodeDigits, List.foldl_append]

theorem decodeDigits_natLitAux :
    ∀ fuel n : Nat, n < fuel → decodeDigits (natLitAux fuel n) = n := by
  intro fuel
  induction fuel with
  | zero => intro n h; omega
  | succ fuel ih =>
    intro n h
    rw [natLitAux]
    split
    · next h10 => simp [decodeDigits, digitVal_digitChar h10]
    · next h10 =>
      rw [decodeDigits_append, ih (n / 10) (by omega),
        digitVal_digitChar (Nat.mod_lt _ (by omega))]
      omega

theorem decodeDigits_natLit (n : Nat) : decodeDigits (natLit n) = n :=
  decodeDigits_natLitAux (n + 1) n (by omega)

theorem natLit_injective : Function.Injective natLit := by
  intro a b h
  rw [← decodeDigits_natLit a, ← decodeDigits_natLit b, h]

/-! ## Sequence-record parser (`FastqParser`, src/fastq-parser.js) -/

/-- One 4-line FASTQ record as accumulated by `FastqParser.parseFastqLine`.
The JavaScript object starts out as `{}` with all fields `undefined`; since
the only use of an unset `header` is a truthiness test (which treats
`undefined` and `''` alike), unset fields are modelled as `[]`. -/
structure FastqEntry where
  header : JStr
  sequence : JStr
  plus : JStr
  quality : JStr
deriving DecidableEq, Repr

/-- The mutable state of a `FastqParser` instance:
`this.sequences`, `this.currentEntry`, `this.lineCount`. -/
structure ParserState where
  sequences : List FastqEntry
  currentEntry : FastqEntry
  lineCount : Nat
deriving DecidableEq, Repr

/-- The constructor state of `FastqParser`. -/
def initParserState : ParserState := ⟨[], ⟨[], [], [], []⟩, 0⟩

/-- `FastqParser.parseFastqLine`: trim the line, skip it when blank, otherwise
dispatch on `lineCount % 4`; on a header line the previous entry is emitted
only when its stored header is truthy (non-empty). -/
def parseFastqLine (st : ParserState) (line : JStr) : ParserState :=
  let t := jsTrim line
  if t = [] then st
  else
    match st.lineCount % 4 with
    | 0 =>
        { sequences :=
            if st.currentEntry.header ≠ [] then st.sequences ++ [st.currentEntry]
            else st.sequences,
          currentEntry := ⟨t.drop 1, [], [], []⟩,
          lineCount := st.lineCount + 1 }
    | 1 => { st with currentEntry := { st.currentEntry with sequence := t },
                     lineCount := st.lineCount + 1 }
    | 2 => { st with currentEntry := { st.currentEntry with plus := t },
                     lineCount := st.lineCount + 1 }
    | _ => { st with currentEntry := { st.currentEntry with quality := t },
                     lineCount := st.lineCount + 1 }

/-- `FastqParser.parseFile`, with the chunk/buffer mechanics resolved into the
list of lines of the input: fold `parseFastqLine` over the lines, then apply
the end-of-stream flush (`if (this.currentEntry.header) push`). -/
def parseFastqLines (lines : List JStr) : List FastqEntry :=
  let final := lines.foldl parseFastqLine initParserState
  if final.currentEntry.header ≠ [] then final.sequences ++ [final.currentEntry]
  else final.sequences

/-! ## Feature extractor (`getSequenceStats`, `calculateComplexity`) -/

/-- The count of characters matched by the regex `[GC]` in
`FastqParser.getSequenceStats`. -/
def gcCount (s : JStr) : Nat := s.countP (fun c => c == 'G' || c == 'C')

/-- JavaScript `toFixed(2)` on a nonnegative value: round to the nearest
multiple of 1/100, halves away from zero (`round x = ⌊x + 1/2⌋`). -/
def round2 (q : ℚ) : ℚ := (round (q * 100) : ℤ) / 100

/-- The `gc_content` statistic of `FastqParser.getSequenceStats`:
`(gcCount / length) * 100` reported to two decimals, `0` for an empty
sequence.  The double arithmetic of the source is modelled exactly over ℚ. -/
def gc_content (s : JStr) : ℚ :=
  if s.length = 0 then 0 else round2 ((gcCount s : ℚ) / (s.length : ℚ) * 100)

/-- The `bases` accumulator object of `FastqParser.getSequenceStats`. -/
structure Bases where
  A : Nat
  T : Nat
  G : Nat
  C : Nat
  N : Nat
deriving DecidableEq, Repr

/-- The base-count loop of `FastqParser.getSequenceStats`: a character that is
an own property of `{A,T,G,C,N}` increments that field, anything else
increments `N`.  The loop only accumulates commutative counters, so it is
modelled by structural recursion on the sequence. -/
def baseCounts : JStr → Bases
  | [] => ⟨0, 0, 0, 0, 0⟩
  | c :: cs =>
      let b := baseCounts cs
      if c = 'A' then { b with A := b.A + 1 }
      else if c = 'T' then { b with T := b.T + 1 }
      else if c = 'G' then { b with G := b.G + 1 }
      else if c = 'C' then { b with C := b.C + 1 }
      else { b with N := b.N + 1 }

/-- The sliding 3-mer window of `FastqParser.calculateComplexity`:
`sequence.substring(i, i + 3)` for `0 ≤ i ≤ length - 3`. -/
def kmers3 (s : JStr) : List JStr :=
  (List.range (s.length - 2)).map (fun i => (s.drop i).take 3)

/-- `FastqParser.calculateComplexity`: the size of the `Set` of 3-mers,
i.e. the number of distinct elements of the sliding-window list. -/
def calculateComplexity (s : JStr) : Nat := (kmers3 s).dedup.length

/-! ## Tabular ingestion (src/data-extractor.js, src/mapping-parser.js) -/

/-- `DataExtractor.parseCSVLine`: scan the line character by character,
toggling `inQuotes` on `"` (the quote itself is never appended to `current`),
splitting on `,` only outside quotes, and pushing `current.trim()` at each
split and at end of line. -/
def parseCSVLineAux : JStr → JStr → Bool → List JStr
  | [], current, _ => [jsTrim current]
  | c :: rest, current, inQuotes =>
      if c = '"' then parseCSVLineAux rest current (!inQuotes)
      else if c = ',' ∧ inQuotes = false then
        jsTrim current :: parseCSVLineAux rest [] inQuotes
      else parseCSVLineAux rest (current ++ [c]) inQuotes

/-- `DataExtractor.parseCSVLine` applied to a whole line. -/
def parseCSVLine (line : JStr) : List JStr := parseCSVLineAux line [] false

/-- A `TabularRow`: a JavaScript object used as a string-to-string map.
Property insertion order is preserved; assignment to an existing property
overwrites in place.  Modelled as an association list with unique keys. -/
abbrev Row := List (JStr × JStr)

/-- JavaScript property assignment `row[k] = v` on a `Row`. -/
def rowSet (row : Row) (k v : JStr) : Row :=
  if row.any (fun p => p.1 == k) then
    row.map (fun p => if p.1 = k then (k, v) else p)
  else row ++ [(k, v)]

/-- JavaScript property read `row[k]` with the `|| ''` default applied by all
call sites (absent property, or present with the falsy value `''`, gives `''`). -/
def rowGet (row : Row) (k : JStr) : JStr :=
  ((row.find? (fun p => p.1 == k)).map (fun p => p.2)).getD []

/-- `Array.prototype.forEach((x, index) => ...)` collecting one output per
element: a map that also passes the element's index. -/
def mapWithIndex (f : Nat → α → β) : Nat → List α → List β
  | _, [] => []
  | i, a :: as => f i a :: mapWithIndex f (i + 1) as

/-- The row-building loop shared by `readFaostatData` and `parseMappingFile`:
`headers.forEach((header, index) => row[header] = values[index] || '')`. -/
def buildRow (headers : List JStr) (values : List JStr) : Row :=
  (mapWithIndex (fun i h => (h, values.getD i [])) 0 headers).foldl
    (fun r p => rowSet r p.1 p.2) []

/-- The streaming state machine of `DataExtractor.readFaostatData`, with the
chunk/buffer mechanics resolved into the list of lines: blank lines are
skipped, the first non-blank line (parsed by `parseCSVLine`) becomes the
header list, every further non-blank line is zipped against the headers. -/
def faoGo : Option (List JStr) → List JStr → List Row
  | _, [] => []
  | none, l :: ls =>
      if jsTrim l = [] then faoGo none ls
      else faoGo (some (parseCSVLine l)) ls
  | some hs, l :: ls =>
      if jsTrim l = [] then faoGo (some hs) ls
      else buildRow hs (parseCSVLine l) :: faoGo (some hs) ls

/-- `DataExtractor.readFaostatData` on the lines of the CSV file. -/
def readFaostatData (lines : List JStr) : List Row := faoGo none lines

/-! ## Record merger (`DataMerger`, src/data-merger.js) -/

/-- One element of the `sequenceData` array handed to `DataMerger.mergeData`:
the output of `FastqParser.extractFeatures` plus the `source_file` field
added by `DataExtractor.processFastqFiles`.  The 2-decimal statistics
(strings in the source, parsed back with `parseFloat` by the merger) are
modelled as the rationals they denote. -/
structure SeqFeatures where
  sequence_id : JStr
  header : JStr
  sequence_length : Nat
  gc_content : ℚ
  a_count : Nat
  t_count : Nat
  g_count : Nat
  c_count : Nat
  n_count : Nat
  quality_score_avg : ℚ
  sequence_complexity : Nat
  has_ambiguous_bases : Nat
  source_file : JStr
deriving DecidableEq, Repr

/-- A `MergedRecord`: the fixed 25-field flat schema built by
`DataMerger.mergeData`, fields in the object-literal order of the source. -/
structure MergedRecord where
  record_id : JStr
  data_type : JStr
  sequence_id : JStr
  source_file : JStr
  sequence_length : Nat
  gc_content : ℚ
  a_count : Nat
  t_count : Nat
  g_count : Nat
  c_count : Nat
  n_count : Nat
  quality_score_avg : ℚ
  sequence_complexity : Nat
  has_ambiguous_bases : Nat
  sample_name : JStr
  barcode : JStr
  experiment_design : JStr
  target_gene : JStr
  platform : JStr
  area : JStr
  item : JStr
  element : JStr
  year : JStr
  value : JStr
  unit : JStr
deriving DecidableEq, Repr

/-- The `data_type` tag of sequence-derived records. -/
def gsType : JStr := "genomic_sequence".toList

/-- The `data_type` tag of agricultural records. -/
def asType : JStr := "agricultural_statistics".toList

/-- JavaScript `Map.set` semantics: overwrite in place when the key exists
(keeping its original iteration position), append otherwise. -/
def mapSet (m : List (JStr × Row)) (k : JStr) (v : Row) : List (JStr × Row) :=
  if m.any (fun p => p.1 == k) then
    m.map (fun p => if p.1 = k then (k, v) else p)
  else m ++ [(k, v)]

/-- `DataMerger.createMappingMap`: key every mapping row by its truthy
(non-empty) `sample_name` and `barcode` values; later rows overwrite. -/
def createMappingMap (mappingData : List Row) : List (JStr × Row) :=
  mappingData.foldl
    (fun m rec =>
      let m1 := if rowGet rec "sample_name".toList ≠ [] then
                  mapSet m (rowGet rec "sample_name".toList) rec
                else m
      if rowGet rec "barcode".toList ≠ [] then
        mapSet m1 (rowGet rec "barcode".toList) rec
      else m1)
    []

/-- `needle.isPrefixOf haystack` on character lists (helper for `hasSub`). -/
def startsWithL : JStr → JStr → Bool
  | [], _ => true
  | _ :: _, [] => false
  | a :: as, b :: bs => a == b && startsWithL as bs

/-- Substring occurrence: `hasSub needle hay = true` iff `needle` occurs
contiguously in `hay` (the semantics of JavaScript `String.includes`). -/
def hasSub (needle : JStr) : JStr → Bool
  | [] => needle.isEmpty
  | c :: hs => startsWithL needle (c :: hs) || hasSub needle hs

/-- JavaScript `s.includes(t)`. -/
def jsIncludes (s t : JStr) : Bool := hasSub t s

/-- The body of the `for (const id of identifiers)` loop of
`DataMerger.findMappingMatch` for one identifier: exact `Map` lookup guarded
by the truthiness of `id`, then the partial-match scan
`if (id && id.includes(key) || key.includes(id)) return value`
(note the JavaScript precedence: `(id && id.includes(key)) || key.includes(id)`). -/
def tryId (id : JStr) (m : List (JStr × Row)) : Option Row :=
  if !id.isEmpty && m.any (fun p => p.1 == id) then
    (m.find? (fun p => p.1 == id)).map (fun p => p.2)
  else
    (m.find? (fun p => (!id.isEmpty && jsIncludes id p.1) || jsIncludes p.1 id)).map
      (fun p => p.2)

/-- `DataMerger.findMappingMatch`: try `sequence_id`, `header`, `source_file`
in order; the first identifier that produces a hit wins. -/
def findMappingMatch (r : SeqFeatures) (m : List (JStr × Row)) : Option Row :=
  match tryId r.sequence_id m with
  | some v => some v
  | none =>
    match tryId r.header m with
    | some v => some v
    | none => tryId r.source_file m

/-- The `baseRecord` object literal built for the `index`-th element of
`sequenceData` in `DataMerger.mergeData`, after the conditional mapping-match
assignments. -/
def mkSeqMerged (index : Nat) (r : SeqFeatures) (mm : Option Row) : MergedRecord :=
  { record_id := "record_".toList ++ natLit (index + 1)
    data_type := gsType
    sequence_id := r.sequence_id
    source_file := r.source_file
    sequence_length := r.sequence_length
    gc_content := r.gc_content
    a_count := r.a_count
    t_count := r.t_count
    g_count := r.g_count
    c_count := r.c_count
    n_count := r.n_count
    quality_score_avg := r.quality_score_avg
    sequence_complexity := r.sequence_complexity
    has_ambiguous_bases := r.has_ambiguous_bases
    sample_name := match mm with | some rec => rowGet rec "sample_name".toList | none => []
    barcode := match mm with | some rec => rowGet rec "barcode".toList | none => []
    experiment_design :=
      match mm with
      | some rec => rowGet rec "experiment_design_description".toList
      | none => []
    target_gene := match mm with | some rec => rowGet rec "target_gene".toList | none => []
    platform := match mm with | some rec => rowGet rec "platform".toList | none => []
    area := []
    item := []
    element := []
    year := []
    value := []
    unit := [] }

/-- The `faoMergedRecord` object literal built for the `index`-th element of
`faostatData` in `DataMerger.mergeData`. -/
def mkFaoMerged (index : Nat) (fr : Row) : MergedRecord :=
  { record_id := "fao_".toList ++ natLit (index + 1)
    data_type := asType
    sequence_id := []
    source_file := "FAOSTAT_data_en_6-23-2025.csv".toList
    sequence_length := 0
    gc_content := 0
    a_count := 0
    t_count := 0
    g_count := 0
    c_count := 0
    n_count := 0
    quality_score_avg := 0
    sequence_complexity := 0
    has_ambiguous_bases := 0
    sample_name := []
    barcode := []
    experiment_design := []
    target_gene := []
    platform := []
    area := rowGet fr "Area".toList
    item := rowGet fr "Item".toList
    element := rowGet fr "Element".toList
    year := rowGet fr "Year".toList
    value := rowGet fr "Value".toList
    unit := rowGet fr "Unit".toList }

/-- `DataMerger.mergeData`: build the mapping lookup, emit one record per
sequence feature (with its mapping match), then one record per FAOSTAT row. -/
def mergeData (sequenceData : List SeqFeatures) (faostatData : List Row)
    (mappingData : List Row) : List MergedRecord :=
  let mappingMap := createMappingMap mappingData
  mapWithIndex (fun i r => mkSeqMerged i r (findMappingMatch r mappingMap)) 0 sequenceData
    ++ mapWithIndex (fun i fr => mkFaoMerged i fr) 0 faostatData

/-! ## CSV output (`DataMerger.writeCSV`) -/

/-- The escaping of `DataMerger.writeCSV` for string-typed values: a value
containing a comma or a quote is wrapped in quotes with inner quotes doubled
(`value.replace(/"/g, '""')`); other values pass through unchanged. -/
def csvEscape (v : JStr) : JStr :=
  if v.contains ',' || v.contains '"' then
    '"' :: (v.map (fun c => if c = '"' then ['"', '"'] else [c])).flatten ++ ['"']
  else v

/-- Deterministic decimal rendering of a `Nat` field (JavaScript renders a
nonnegative integer exactly this way). -/
def renderNat (n : Nat) : JStr := natLit n

/-- Deterministic rendering of a rational field.  JavaScript
number-to-string conversion is itself a pure function of the numeric value;
its exact shortest-float format is not reproduced here, only a fixed
injective rendering of the value, which is all the output-determinism
property depends on. -/
def renderRat (q : ℚ) : JStr :=
  (if q < 0 then ['-'] else []) ++ natLit q.num.natAbs ++
    (if q.den = 1 then [] else '/' :: natLit q.den)

/-- `values.join(',')`. -/
def joinComma : List JStr → JStr
  | [] => []
  | [x] => x
  | x :: xs => x ++ ',' :: joinComma xs

/-- `Object.keys(data[0]).join(',')`: the header line of the output CSV,
in the object-literal field order shared by both record kinds. -/
def csvHeaderChars : JStr :=
  ("record_id,data_type,sequence_id,source_file,sequence_length,gc_content," ++
   "a_count,t_count,g_count,c_count,n_count,quality_score_avg," ++
   "sequence_complexity,has_ambiguous_bases,sample_name,barcode," ++
   "experiment_design,target_gene,platform,area,item,element,year,value,unit").toList

/-- One output row of `DataMerger.writeCSV`: each field serialized in header
order, string fields escaped, numeric fields rendered directly. -/
def rowChars (r : MergedRecord) : JStr :=
  joinComma
    [csvEscape r.record_id, csvEscape r.data_type, csvEscape r.sequence_id,
     csvEscape r.source_file, renderNat r.sequence_length, renderRat r.gc_content,
     renderNat r.a_count, renderNat r.t_count, renderNat r.g_count,
     renderNat r.c_count, renderNat r.n_count, renderRat r.quality_score_avg,
     renderNat r.sequence_complexity, renderNat r.has_ambiguous_bases,
     csvEscape r.sample_name, csvEscape r.barcode, csvEscape r.experiment_design,
     csvEscape r.target_gene, csvEscape r.platform, csvEscape r.area,
     csvEscape r.item, csvEscape r.element, csvEscape r.year,
     csvEscape r.value, csvEscape r.unit]

/-- `DataMerger.writeCSV` as the byte sequence written to the output file:
nothing for an empty dataset, otherwise the header line followed by one line
per record. -/
def writeCSVString (data : List MergedRecord) : JStr :=
  match data with
  | [] => []
  | _ => csvHeaderChars ++ '\n' :: (data.map (fun r => rowChars r ++ ['\n'])).flatten

/-! ## Summary and driver (`generateDataSummary`, src/process-all.js) -/

/-- The summary object of `DataMerger.generateDataSummary`. -/
structure Summary where
  total_records : Nat
  sequence_records : Nat
  faostat_records : Nat
  avg_sequence_length : ℚ
  avg_gc_content : ℚ
  unique_sources : Nat
deriving DecidableEq, Repr

/-- `DataMerger.generateDataSummary`: counts by `data_type`, means over the
sequence-typed records (left at `0` when there are none), and the size of the
`Set` of `source_file` values. -/
def generateDataSummary (data : List MergedRecord) : Summary :=
  let seqRecords := data.filter (fun r => r.data_type == gsType)
  { total_records := data.length
    sequence_records := seqRecords.length
    faostat_records := (data.filter (fun r => r.data_type == asType)).length
    avg_sequence_length :=
      if seqRecords.length > 0 then
        ((seqRecords.map (fun r => (r.sequence_length : ℚ))).sum) / seqRecords.length
      else 0
    avg_gc_content :=
      if seqRecords.length > 0 then
        ((seqRecords.map (fun r => r.gc_content)).sum) / seqRecords.length
      else 0
    unique_sources := (data.map (fun r => r.source_file)).dedup.length }

/-- The data-availability decision of `processAllData` (src/process-all.js):
once the three input sources have been ingested, the run throws
`'No data found to process. Please check your input files.'` when both the
sequence data and the FAOSTAT data are empty, and otherwise merges and
summarizes. -/
def processAllData (sequenceData : List SeqFeatures) (faostatData : List Row)
    (mappingData : List Row) : Except JStr (List MergedRecord × Summary) :=
  if sequenceData.length = 0 ∧ faostatData.length = 0 then
    .error "No data found to process. Please check your input files.".toList
  else
    let merged := mergeData sequenceData faostatData mappingData
    .ok (merged, generateDataSummary merged)

/-! ## Concrete inputs used by the claim instances -/

/-- A concrete sequence-feature record (as produced for one 4-base read). -/
def sampleSeqFeature : SeqFeatures :=
  { sequence_id := "seq_1".toList
    header := "h1".toList
    sequence_length := 4
    gc_content := 0
    a_count := 4
    t_count := 0
    g_count := 0
    c_count := 0
    n_count := 0
    quality_score_avg := 0
    sequence_complexity := 1
    has_ambiguous_bases := 0
    source_file := "f.fastq".toList }

/-- A concrete FAOSTAT row. -/
def sampleFaoRow : Row :=
  [("Area".toList, "India".toList), ("Year".toList, "2020".toList)]

/-- Input lines whose first record's header line is just the `@` marker. -/
def emptyHeaderDemoLines : List JStr :=
  ["@".toList, "ACGT".toList, "+".toList, "IIII".toList,
   "@h2".toList, "TTTT".toList, "+".toList, "JJJJ".toList]

/-! ## Helper lemmas -/

theorem hasSub_nil (hay : JStr) : hasSub [] hay = true := by
  cases hay <;> simp [hasSub, startsWithL]

theorem round2_nonneg {x : ℚ} (h : 0 ≤ x) : 0 ≤ round2 x := by
  unfold round2
  have hn : (0 : ℤ) ≤ round (x * 100) := by
    rw [round_eq]
    exact Int.floor_nonneg.mpr (by linarith)
  positivity

theorem round2_le_100 {x : ℚ} (h : x ≤ 100) : round2 x ≤ 100 := by
  unfold round2
  have hn : round (x * 100) ≤ 10000 := by
    rw [round_eq]
    have hlt : ⌊x * 100 + 1 / 2⌋ < (10001 : ℤ) := by
      rw [Int.floor_lt]
      push_cast
      linarith
    omega
  rw [div_le_iff₀ (by norm_num : (0 : ℚ) < 100)]
  calc ((round (x * 100) : ℤ) : ℚ) ≤ ((10000 : ℤ) : ℚ) := by exact_mod_cast hn
    _ = 100 * 100 := by norm_num

/-! ## Claims about the feature extractor -/

/-- C4: for every sequence string, `gc_content` equals
100 × (count of G or C) / length rounded to 2 decimal places, equals 0 when
the length is 0, and otherwise lies within [0, 100]. -/
theorem gc_content_formula_and_bounds (s : JStr) :
    (s.length = 0 → gc_content s = 0) ∧
    (s.length ≠ 0 →
      gc_content s = round2 (100 * (gcCount s : ℚ) / (s.length : ℚ)) ∧
      0 ≤ gc_content s ∧ gc_content s ≤ 100) := by
  constructor
  · intro h
    simp [gc_content, h]
  · intro h
    have hl : 0 < s.length := Nat.pos_of_ne_zero h
    have hlq : (0 : ℚ) < (s.length : ℚ) := by exact_mod_cast hl
    have hc : (gcCount s : ℚ) ≤ (s.length : ℚ) := by
      exact_mod_cast List.countP_le_length (l := s) (fun c => c == 'G' || c == 'C')
    have harg : (gcCount s : ℚ) / (s.length : ℚ) * 100
        = 100 * (gcCount s : ℚ) / (s.length : ℚ) := by ring
    have hx0 : 0 ≤ (gcCount s : ℚ) / (s.length : ℚ) * 100 := by positivity
    have hx100 : (gcCount s : ℚ) / (s.length : ℚ) * 100 ≤ 100 := by
      have h1 : (gcCount s : ℚ) / (s.length : ℚ) ≤ 1 := (div_le_one hlq).mpr hc
      nlinarith
    have hval : gc_content s = round2 ((gcCount s : ℚ) / (s.length : ℚ) * 100) := by
      simp [gc_content, h]
    refine ⟨by rw [hval, harg], ?_, ?_⟩
    · rw [hval]; exact round2_nonneg hx0
    · rw [hval]; exact round2_le_100 hx100

/-- Witness for C4 at the concrete sequence `"GCA"`. -/
theorem gc_content_formula_and_bounds_witness :
    ("GCA".toList.length ≠ 0) ∧
    0 ≤ gc_content "GCA".toList ∧ gc_content "GCA".toList ≤ 100 :=
  ⟨by decide, ((gc_content_formula_and_bounds "GCA".toList).2 (by decide)).2⟩

/-- C5: `complexity` is the cardinality of the set of distinct length-3
substrings over all sliding positions, is 0 for sequences shorter than 3,
is at most `length - 2` (truncated subtraction, i.e. `max 0 (length-2)`),
and the sequence `"AAAA"` has complexity 1. -/
theorem calculateComplexity_spec (s : JStr) :
    calculateComplexity s = (kmers3 s).toFinset.card ∧
    (s.length < 3 → calculateComplexity s = 0) ∧
    calculateComplexity s ≤ s.length - 2 ∧
    calculateComplexity "AAAA".toList = 1 := by
  refine ⟨(List.card_toFinset _).symm, ?_, ?_, by decide⟩
  · intro h
    have h2 : s.length - 2 = 0 := by omega
    simp [calculateComplexity, kmers3, h2]
  · calc calculateComplexity s ≤ (kmers3 s).length :=
          (List.dedup_sublist (kmers3 s)).length_le
      _ = s.length - 2 := by simp [kmers3]

/-- Witness for C5 at the concrete sequence `"AB"` (length < 3). -/
theorem calculateComplexity_spec_witness :
    ("AB".toList.length < 3) ∧ calculateComplexity "AB".toList = 0 :=
  ⟨by decide, (calculateComplexity_spec "AB".toList).2.1 (by decide)⟩

theorem baseCounts_cons (c : Char) (cs : JStr) :
    baseCounts (c :: cs) =
      if c = 'A' then { baseCounts cs with A := (baseCounts cs).A + 1 }
      else if c = 'T' then { baseCounts cs with T := (baseCounts cs).T + 1 }
      else if c = 'G' then { baseCounts cs with G := (baseCounts cs).G + 1 }
      else if c = 'C' then { baseCounts cs with C := (baseCounts cs).C + 1 }
      else { baseCounts cs with N := (baseCounts cs).N + 1 } := rfl

/-- C6: the base counts partition the sequence:
`length = A + T + G + C + N`, with A/T/G/C counted case-sensitively and every
character outside {A,T,G,C} counted into N. -/
theorem baseCounts_partition (s : JStr) :
    (baseCounts s).A + (baseCounts s).T + (baseCounts s).G + (baseCounts s).C
        + (baseCounts s).N = s.length ∧
    (baseCounts s).A = s.countP (fun c => c == 'A') ∧
    (baseCounts s).T = s.countP (fun c => c == 'T') ∧
    (baseCounts s).G = s.countP (fun c => c == 'G') ∧
    (baseCounts s).C = s.countP (fun c => c == 'C') ∧
    (baseCounts s).N = s.countP (fun c => !(c == 'A' || c == 'T' || c == 'G' || c == 'C')) := by
  induction s with
  | nil => simp [baseCounts]
  | cons c cs ih =>
    obtain ⟨h1, h2, h3, h4, h5, h6⟩ := ih
    simp only [Bool.not_or] at h6 ⊢
    rw [baseCounts_cons]
    simp only [List.countP_cons, List.length_cons]
    by_cases hA : c = 'A'
    · subst hA; simp [h1, h2, h3, h4, h5, h6]; omega
    · by_cases hT : c = 'T'
      · subst hT; simp [if_neg hA, h1, h2, h3, h4, h5, h6]; omega
      · by_cases hG : c = 'G'
        · subst hG; simp [if_neg hA, if_neg hT, h1, h2, h3, h4, h5, h6]; omega
        · by_cases hC : c = 'C'
          · subst hC; simp [if_neg hA, if_neg hT, if_neg hG, h1, h2, h3, h4, h5, h6]
            omega
          · simp [if_neg hA, if_neg hT, if_neg hG, if_neg hC, hA, hT, hG, hC,
              h1, h2, h3, h4, h5, h6]
            omega

/-! ## Claims about the sequence-record parser -/

theorem parseFastqLine_header_invariant (st : ParserState) (line : JStr)
    (h : ∀ e ∈ st.sequences, e.header ≠ []) :
    ∀ e ∈ (parseFastqLine st line).sequences, e.header ≠ [] := by
  intro e he
  unfold parseFastqLine at he
  by_cases ht : jsTrim line = []
  · rw [if_pos ht] at he
    exact h e he
  · rw [if_neg ht] at he
    split at he
    · by_cases hg : st.currentEntry.header ≠ []
      · simp only [if_pos hg] at he
        rcases List.mem_append.mp he with hl | hr
        · exact h e hl
        · rw [List.mem_singleton.mp hr]
          exact hg
      · simp only [if_neg hg] at he
        exact h e he
    · exact h e he
    · exact h e he
    · exact h e he

theorem foldl_parseFastqLine_invariant (lines : List JStr) :
    ∀ st : ParserState, (∀ e ∈ st.sequences, e.header ≠ []) →
      ∀ e ∈ (lines.foldl parseFastqLine st).sequences, e.header ≠ [] := by
  induction lines with
  | nil => intro st h; simpa using h
  | cons l ls ih =>
    intro st h
    exact ih _ (parseFastqLine_header_invariant st l h)

/-- C9: a record whose header line consists solely of the leading marker
(so the stored header after stripping `@` is empty) is never emitted — every
emitted entry has a non-empty header — and on the concrete input whose first
record has the bare `@` header, its sequence and quality lines (`ACGT`,
`IIII`) appear nowhere in the output. -/
theorem parseFastqLines_no_empty_header :
    (∀ lines : List JStr, ∀ e ∈ parseFastqLines lines, e.header ≠ []) ∧
    parseFastqLines emptyHeaderDemoLines =
      [⟨"h2".toList, "TTTT".toList, "+".toList, "JJJJ".toList⟩] := by
  constructor
  · intro lines e he
    unfold parseFastqLines at he
    have hinv := foldl_parseFastqLine_invariant lines initParserState (by simp [initParserState])
    by_cases hg : (lines.foldl parseFastqLine initParserState).currentEntry.header ≠ []
    · simp only [if_pos hg] at he
      rcases List.mem_append.mp he with hl | hr
      · exact hinv e hl
      · rw [List.mem_singleton.mp hr]
        exact hg
    · simp only [if_neg hg] at he
      exact hinv e he
  · decide

/-- Witness for C9: the sole emitted entry of the demo input has a
non-empty header. -/
theorem parseFastqLines_no_empty_header_witness :
    (⟨"h2".toList, "TTTT".toList, "+".toList, "JJJJ".toList⟩ : FastqEntry).header ≠ [] :=
  parseFastqLines_no_empty_header.1 emptyHeaderDemoLines _ (by decide)

/-! ## Claims about the CSV ingester -/

/-- C8: ingesting a CSV whose header line is `a,b,c` and whose single data
line is `1,"x,y",3` yields exactly one row `{a:"1", b:"x,y", c:"3"}`. -/
theorem readFaostatData_round_trip :
    readFaostatData ["a,b,c".toList, "1,\"x,y\",3".toList] =
      [[("a".toList, "1".toList), ("b".toList, "x,y".toList), ("c".toList, "3".toList)]] := by
  decide

/-- C2 counterexample: in the field `"a""b"` the doubled double-quote is
dropped entirely — the parsed value is `ab`, not the claimed `a"b`. -/
theorem parseCSVLine_doubled_quote_counterexample :
    parseCSVLine "\"a\"\"b\",c".toList = ["ab".toList, "c".toList] ∧
    "ab".toList ≠ "a\"b".toList := by
  decide

theorem parseCSVLineAux_in_quotes (f : JStr) (hf : '"' ∉ f) :
    ∀ cur rest : JStr,
      parseCSVLineAux (f ++ rest) cur true = parseCSVLineAux rest (cur ++ f) true := by
  induction f with
  | nil => intro cur rest; simp
  | cons c cs ih =>
    intro cur rest
    have hc : ¬ c = '"' := fun h => hf (h ▸ List.mem_cons_self c cs)
    have hcs : '"' ∉ cs := fun h => hf (List.mem_cons_of_mem c h)
    simp only [List.cons_append, parseCSVLineAux, if_neg hc, List.append_eq]
    rw [if_neg (by simp)]
    rw [ih hcs (cur ++ [c]) rest, List.append_assoc]
    rfl

/-- C2 amended: a double-quote-delimited field containing embedded commas is
parsed as a single field value, and a doubled double-quote inside a quoted
field is removed entirely, contributing no character (in particular no
literal quote) to the value. -/
theorem parseCSVLine_quoting_behavior :
    (∀ f r : JStr, '"' ∉ f →
      parseCSVLine ('"' :: f ++ '"' :: ',' :: r) = jsTrim f :: parseCSVLine r) ∧
    (∀ rest cur : JStr, ∀ q : Bool,
      parseCSVLineAux ('"' :: '"' :: rest) cur q = parseCSVLineAux rest cur q) := by
  constructor
  · intro f r hf
    unfold parseCSVLine
    show parseCSVLineAux ('"' :: (f ++ '"' :: ',' :: r)) [] false = _
    rw [show parseCSVLineAux ('"' :: (f ++ '"' :: ',' :: r)) [] false
        = parseCSVLineAux (f ++ '"' :: ',' :: r) [] true by
      simp [parseCSVLineAux]]
    rw [parseCSVLineAux_in_quotes f hf [] ('"' :: ',' :: r)]
    simp [parseCSVLineAux]
  · intro rest cur q
    simp [parseCSVLineAux]

/-- Witness for the amended C2 at the concrete quoted field `x,y`. -/
theorem parseCSVLine_quoting_behavior_witness :
    ('"' ∉ "x,y".toList) ∧
    parseCSVLine ('"' :: "x,y".toList ++ '"' :: ',' :: "3".toList) =
      jsTrim "x,y".toList :: parseCSVLine "3".toList :=
  ⟨by decide, parseCSVLine_quoting_behavior.1 "x,y".toList "3".toList (by decide)⟩

/-! ## Claims about the merger -/

theorem mapWithIndex_map (g : β → γ) (f : Nat → α → β) :
    ∀ (i : Nat) (l : List α),
      (mapWithIndex f i l).map g = mapWithIndex (fun j a => g (f j a)) i l := by
  intro i l
  induction l generalizing i with
  | nil => rfl
  | cons a as ih => simp [mapWithIndex, ih]

theorem mapWithIndex_eq_range'_map (f : Nat → α → β) (c : Nat → β)
    (h : ∀ i a, f i a = c i) :
    ∀ (i : Nat) (l : List α), mapWithIndex f i l = (List.range' i l.length).map c := by
  intro i l
  induction l generalizing i with
  | nil => rfl
  | cons a as ih => simp [mapWithIndex, List.range', h, ih]

theorem mapWithIndex_const (f : Nat → α → β) (b : β) (h : ∀ i a, f i a = b) :
    ∀ (i : Nat) (l : List α), mapWithIndex f i l = List.replicate l.length b := by
  intro i l
  induction l generalizing i with
  | nil => rfl
  | cons a as ih => simp [mapWithIndex, List.replicate, h, ih]

theorem mapWithIndex_length (f : Nat → α → β) :
    ∀ (i : Nat) (l : List α), (mapWithIndex f i l).length = l.length := by
  intro i l
  induction l generalizing i with
  | nil => rfl
  | cons a as ih => simp [mapWithIndex, ih]

theorem filter_mapWithIndex_true (f : Nat → α → β) (p : β → Bool)
    (h : ∀ i a, p (f i a) = true) :
    ∀ (i : Nat) (l : List α), (mapWithIndex f i l).filter p = mapWithIndex f i l := by
  intro i l
  induction l generalizing i with
  | nil => rfl
  | cons a as ih => simp [mapWithIndex, List.filter, h, ih]

theorem filter_mapWithIndex_false (f : Nat → α → β) (p : β → Bool)
    (h : ∀ i a, p (f i a) = false) :
    ∀ (i : Nat) (l : List α), (mapWithIndex f i l).filter p = [] := by
  intro i l
  induction l generalizing i with
  | nil => rfl
  | cons a as ih => simp [mapWithIndex, List.filter, h, ih]

/-- C1 counterexample: with one sequence record and one agricultural record,
the numeric suffixes of the emitted `record_id`s are `[1, 1]` — the
agricultural counter restarts at 1 — so the ids are not assigned sequentially
(`[1, 2]`) across the combined emission order, and their numeric parts are
neither unique nor monotonic over the whole output. -/
theorem mergeData_record_id_not_sequential_across :
    (mergeData [sampleSeqFeature] [sampleFaoRow] []).map
        (fun r => digitsSuffixVal r.record_id) = [1, 1] ∧
    ¬ (mergeData [sampleSeqFeature] [sampleFaoRow] []).map
        (fun r => digitsSuffixVal r.record_id) =
      List.range' 1 (mergeData [sampleSeqFeature] [sampleFaoRow] []).length := by
  decide

/-- C1 amended: `record_id` is assigned sequentially within each block —
`record_1 .. record_n` over the sequence-derived records in emission order,
then `fao_1 .. fao_m` over the agricultural records, the counter restarting
at 1 for the agricultural block — all sequence-derived records precede all
agricultural records, and the `record_id` strings are unique over the whole
merged output (the numeric suffixes are monotonic only within each block). -/
theorem mergeData_record_id_assignment (s : List SeqFeatures) (f m : List Row) :
    (mergeData s f m).map (fun r => r.record_id) =
      (List.range' 0 s.length).map (fun i => "record_".toList ++ natLit (i + 1)) ++
      (List.range' 0 f.length).map (fun i => "fao_".toList ++ natLit (i + 1)) ∧
    ((mergeData s f m).map (fun r => r.record_id)).Nodup ∧
    (mergeData s f m).map (fun r => r.data_type) =
      List.replicate s.length gsType ++ List.replicate f.length asType := by
  have hids : (mergeData s f m).map (fun r => r.record_id) =
      (List.range' 0 s.length).map (fun i => "record_".toList ++ natLit (i + 1)) ++
      (List.range' 0 f.length).map (fun i => "fao_".toList ++ natLit (i + 1)) := by
    unfold mergeData
    rw [List.map_append, mapWithIndex_map, mapWithIndex_map]
    congr 1
    · exact mapWithIndex_eq_range'_map _
        (fun i => "record_".toList ++ natLit (i + 1)) (fun i a => rfl) 0 s
    · exact mapWithIndex_eq_range'_map _
        (fun i => "fao_".toList ++ natLit (i + 1)) (fun i a => rfl) 0 f
  have hinj1 : Function.Injective (fun i : Nat => "record_".toList ++ natLit (i + 1)) := by
    intro a b hab
    have h1 := List.append_cancel_left hab
    have h2 := natLit_injective h1
    omega
  have hinj2 : Function.Injective (fun i : Nat => "fao_".toList ++ natLit (i + 1)) := by
    intro a b hab
    have h1 := List.append_cancel_left hab
    have h2 := natLit_injective h1
    omega
  refine ⟨hids, ?_, ?_⟩
  · rw [hids]
    refine List.Nodup.append
      ((List.nodup_range' _ _ _ (by norm_num)).map hinj1)
      ((List.nodup_range' _ _ _ (by norm_num)).map hinj2) ?_
    intro x hx hx'
    obtain ⟨i, -, rfl⟩ := List.mem_map.mp hx
    obtain ⟨j, -, hj⟩ := List.mem_map.mp hx'
    have hhead : ("fao_".toList ++ natLit (j + 1)).head?
        = ("record_".toList ++ natLit (i + 1)).head? := by rw [hj]
    have h1 : ("fao_".toList ++ natLit (j + 1)).head? = some 'f' := rfl
    have h2 : ("record_".toList ++ natLit (i + 1)).head? = some 'r' := rfl
    rw [h1, h2] at hhead
    simp at hhead
  · unfold mergeData
    rw [List.map_append, mapWithIndex_map, mapWithIndex_map]
    congr 1
    · exact mapWithIndex_const _ gsType (fun i a => rfl) 0 s
    · exact mapWithIndex_const _ asType (fun i a => rfl) 0 f

/-- C10: when the first identifier tried (`sequence_id`) is the empty string,
`findMappingMatch` on a non-empty lookup returns the first entry of the
lookup through the substring-containment fallback (every key contains the
empty string), so the mapping fields are populated from that unrelated
mapping row rather than left empty. -/
theorem findMappingMatch_empty_sequence_id (hdr src : JStr) (len : Nat) (gc : ℚ)
    (a t g c n : Nat) (qa : ℚ) (cx amb : Nat) (k : JStr) (row : Row)
    (rest : List (JStr × Row)) :
    findMappingMatch
      { sequence_id := [], header := hdr, sequence_length := len, gc_content := gc,
        a_count := a, t_count := t, g_count := g, c_count := c, n_count := n,
        quality_score_avg := qa, sequence_complexity := cx,
        has_ambiguous_bases := amb, source_file := src }
      ((k, row) :: rest) = some row := by
  unfold findMappingMatch tryId
  simp [jsIncludes, hasSub_nil, List.find?]

/-! ## Claims about the driver (src/process-all.js) -/

theorem generateDataSummary_sequence_records (s : List SeqFeatures) (f m : List Row) :
    (generateDataSummary (mergeData s f m)).sequence_records = s.length := by
  have hshow : (generateDataSummary (mergeData s f m)).sequence_records
      = ((mergeData s f m).filter (fun r => r.data_type == gsType)).length := rfl
  rw [hshow]
  unfold mergeData
  rw [List.filter_append,
    filter_mapWithIndex_true _ _ (fun i a => by show (gsType == gsType) = true; decide),
    filter_mapWithIndex_false _ _ (fun i a => by show (asType == gsType) = false; decide),
    List.append_nil, mapWithIndex_length]

/-- C3: the run reports a hard error if and only if both the sequence source
and the agricultural source yield zero records; with an empty sequence source
and a non-empty agricultural source the merge proceeds and the summary
reports `sequence_records = 0`. -/
theorem processAllData_no_data_semantics (s : List SeqFeatures) (f m : List Row) :
    ((∃ e, processAllData s f m = .error e) ↔ s = [] ∧ f = []) ∧
    (s = [] → f ≠ [] →
      ∃ out, processAllData s f m = .ok out ∧ out.2.sequence_records = 0) := by
  constructor
  · constructor
    · rintro ⟨e, he⟩
      unfold processAllData at he
      split at he
      · next h =>
        exact ⟨List.length_eq_zero.mp h.1, List.length_eq_zero.mp h.2⟩
      · exact absurd he (by simp)
    · rintro ⟨rfl, rfl⟩
      exact ⟨"No data found to process. Please check your input files.".toList, rfl⟩
  · rintro rfl hf
    refine ⟨(mergeData [] f m, generateDataSummary (mergeData [] f m)), ?_, ?_⟩
    · unfold processAllData
      rw [if_neg (by simp [List.length_eq_zero, hf])]
    · exact generateDataSummary_sequence_records [] f m

/-- Witness for C3 with only an agricultural record present. -/
theorem processAllData_no_data_semantics_witness :
    ∃ out, processAllData [] [sampleFaoRow] [] = .ok out ∧
      out.2.sequence_records = 0 :=
  (processAllData_no_data_semantics [] [sampleFaoRow] []).2 rfl (by decide)

/-- C7: the merge, including `record_id` assignment and the serialized CSV
bytes, is a pure function of the three input lists and their order — two runs
on identical inputs in identical order produce byte-identical output. -/
theorem mergeData_deterministic (s s' : List SeqFeatures) (f m f' m' : List Row)
    (hs : s = s') (hf : f = f') (hm : m = m') :
    mergeData s f m = mergeData s' f' m' ∧
    writeCSVString (mergeData s f m) = writeCSVString (mergeData s' f' m') := by
  subst hs hf hm
  exact ⟨rfl, rfl⟩

/-- Witness for C7 at a concrete input pair. -/
theorem mergeData_deterministic_witness :
    mergeData [sampleSeqFeature] [sampleFaoRow] []
      = mergeData [sampleSeqFeature] [sampleFaoRow] [] ∧
    writeCSVString (mergeData [sampleSeqFeature] [sampleFaoRow] [])
      = writeCSVString (mergeData [sampleSeqFeature] [sampleFaoRow] []) :=
  mergeData_deterministic _ _ _ _ _ _ rfl rfl rfl
